import Mathlib

/-!
Verification of the listen-detection core of mpd-wrapped.

We shallowly embed the Rust sources:
  * `src/mpd/listen_iterator.rs` (`ListenIterator`),
  * `src/main.rs` (`SongListenTracker`, `MpdStatusIterator`),
  * `src/mpd/status_iterator.rs` (`StatusIterator`).

Modelling conventions:
  * `std::time::Duration` values are modelled as natural numbers of
    nanoseconds (Rust's `Duration` is `(secs : u64, nanos : u32)` with
    `nanos < 10^9`, ordered lexicographically, which is exactly the order
    on total nanoseconds).  `Duration::from_secs n` is `n * 10^9` and
    `Duration::as_secs` is division by `10^9` (truncation).
  * the float comparison `max_elapsed.as_secs_f64() / total_duration.as_secs_f64()
    >= 0.6` is modelled by the exact rational inequality
    `3 * total_duration ≤ 5 * max_elapsed` (for positive durations the real
    ratio is `max_ns / dur_ns`, and `max_ns / dur_ns ≥ 3/5 ↔ 3 * dur_ns ≤ 5 * max_ns`).
  * `chrono::Utc::now()` is modelled by passing the current wall-clock time
    to each transition as an explicit natural-number timestamp.
  * the lazy blocking iterators are modelled over finite lists of inputs:
    the end of the list is source exhaustion.
-/

/-- `Duration::from_secs`: seconds to nanoseconds. -/
def durFromSecs (n : Nat) : Nat := n * 1000000000

/-- `Duration::as_secs`: nanoseconds to whole (truncated) seconds. -/
def durAsSecs (d : Nat) : Nat := d / 1000000000

/-- The fields of `mpd::Song` that the core reads: track identity is the
`file` field; the remaining metadata is carried along but never inspected by
the tracker. -/
structure Song where
  file : String
  title : Option String
  artist : Option String
  deriving DecidableEq, Repr

/-- `SongStatus` from `src/mpd/status_iterator.rs` (the copy in `src/main.rs`
is field-for-field identical): a status sample with a definite duration and
elapsed position. -/
structure SongStatus where
  song : Song
  duration : Nat
  elapsed : Nat
  deriving DecidableEq, Repr

/-- `SongListenRecord`: an emitted listen record (track + span start time). -/
structure SongListenRecord where
  song : Song
  start : Nat
  deriving DecidableEq, Repr

/-- `CurrentListen`: the active span (track, wall-clock start, high-water
mark of the elapsed position). -/
structure CurrentListen where
  song : Song
  start : Nat
  max_elapsed : Nat
  deriving DecidableEq, Repr

namespace ListenIterator

/-- `ListenIterator::should_emit` from `src/mpd/listen_iterator.rs`:
`max_elapsed >= 20s || (total_duration.as_secs() > 0 && ratio >= 0.6)`,
with the float ratio modelled exactly (see the file header). -/
def should_emit (max_elapsed total_duration : Nat) : Bool :=
  let threshold_time := durFromSecs 20
  let time_threshold_met := decide (threshold_time ≤ max_elapsed)
  let percentage_threshold_met :=
    decide (0 < durAsSecs total_duration) && decide (3 * total_duration ≤ 5 * max_elapsed)
  time_threshold_met || percentage_threshold_met

/-- `ListenIterator::is_restart`: `elapsed < 5s && max_elapsed >= 5s`. -/
def is_restart (elapsed max_elapsed : Nat) : Bool :=
  let restart_threshold := durFromSecs 5
  decide (elapsed < restart_threshold) && decide (restart_threshold ≤ max_elapsed)

/-- One iteration of the loop body of `ListenIterator::next`
(`src/mpd/listen_iterator.rs`, lines 57-117): given the current optional
span, the wall clock `now` and the pulled `status`, return the new span and
the optionally emitted record. -/
def step (cur : Option CurrentListen) (now : Nat) (status : SongStatus) :
    Option CurrentListen × Option SongListenRecord :=
  match cur with
  | none =>
      (some ⟨status.song, now, status.elapsed⟩, none)
  | some listen =>
      if listen.song.file ≠ status.song.file then
        (some ⟨status.song, now, status.elapsed⟩,
          if should_emit listen.max_elapsed status.duration then
            some ⟨listen.song, listen.start⟩
          else none)
      else if is_restart status.elapsed listen.max_elapsed then
        (some ⟨listen.song, now, status.elapsed⟩,
          if should_emit listen.max_elapsed status.duration then
            some ⟨listen.song, listen.start⟩
          else none)
      else
        (some ⟨listen.song, listen.start,
            if listen.max_elapsed < status.elapsed then status.elapsed
            else listen.max_elapsed⟩,
          none)

/-- `ListenIterator::next`: pull timed samples until a record is emitted
(returning it with the new span and the unconsumed input) or the source is
exhausted (returning `none`). -/
def nextRecord : Option CurrentListen → List (Nat × SongStatus) →
    Option (SongListenRecord × Option CurrentListen × List (Nat × SongStatus))
  | _, [] => none
  | cur, (now, status) :: rest =>
      match step cur now status with
      | (cur', some rec) => some (rec, cur', rest)
      | (cur', none) => nextRecord cur' rest

/-- Driving the iterator to exhaustion: all emitted records in order, and the
final (discarded) span. -/
def run : Option CurrentListen → List (Nat × SongStatus) →
    List SongListenRecord × Option CurrentListen
  | cur, [] => ([], cur)
  | cur, (now, status) :: rest =>
      match step cur now status with
      | (cur', some rec) =>
          let res := run cur' rest
          (rec :: res.1, res.2)
      | (cur', none) => run cur' rest

end ListenIterator

namespace SongListenTracker

/-- `SongListenTracker::should_emit` from `src/main.rs` (lines 88-97). -/
def should_emit (max_elapsed total_duration : Nat) : Bool :=
  let threshold_time := durFromSecs 20
  let time_threshold_met := decide (threshold_time ≤ max_elapsed)
  let percentage_threshold_met :=
    decide (0 < durAsSecs total_duration) && decide (3 * total_duration ≤ 5 * max_elapsed)
  time_threshold_met || percentage_threshold_met

/-- `SongListenTracker::is_restart` from `src/main.rs` (lines 99-102). -/
def is_restart (elapsed max_elapsed : Nat) : Bool :=
  let restart_threshold := durFromSecs 5
  decide (elapsed < restart_threshold) && decide (restart_threshold ≤ max_elapsed)

/-- One iteration of the loop body of `SongListenTracker::next`
(`src/main.rs`, lines 111-171). -/
def step (cur : Option CurrentListen) (now : Nat) (status : SongStatus) :
    Option CurrentListen × Option SongListenRecord :=
  match cur with
  | none =>
      (some ⟨status.song, now, status.elapsed⟩, none)
  | some listen =>
      if listen.song.file ≠ status.song.file then
        (some ⟨status.song, now, status.elapsed⟩,
          if should_emit listen.max_elapsed status.duration then
            some ⟨listen.song, listen.start⟩
          else none)
      else if is_restart status.elapsed listen.max_elapsed then
        (some ⟨listen.song, now, status.elapsed⟩,
          if should_emit listen.max_elapsed status.duration then
            some ⟨listen.song, listen.start⟩
          else none)
      else
        (some ⟨listen.song, listen.start,
            if listen.max_elapsed < status.elapsed then status.elapsed
            else listen.max_elapsed⟩,
          none)

/-- `SongListenTracker::next` over a finite timed-sample list. -/
def nextRecord : Option CurrentListen → List (Nat × SongStatus) →
    Option (SongListenRecord × Option CurrentListen × List (Nat × SongStatus))
  | _, [] => none
  | cur, (now, status) :: rest =>
      match step cur now status with
      | (cur', some rec) => some (rec, cur', rest)
      | (cur', none) => nextRecord cur' rest

/-- Driving `SongListenTracker` to exhaustion. -/
def run : Option CurrentListen → List (Nat × SongStatus) →
    List SongListenRecord × Option CurrentListen
  | cur, [] => ([], cur)
  | cur, (now, status) :: rest =>
      match step cur now status with
      | (cur', some rec) =>
          let res := run cur' rest
          (rec :: res.1, res.2)
      | (cur', none) => run cur' rest

end SongListenTracker

/-- The optional fields of an `mpd::Status` that the status sources read. -/
structure RawStatus where
  elapsed : Option Nat
  duration : Option Nat
  deriving DecidableEq, Repr

/-- One player-state-change notification as the status sources see it:
whether `client.idle(&[Subsystem::Player])` succeeded, the result of
`client.status()` (`none` models a protocol error), and the result of
`client.currentsong()` (`none` models an error, `some none` no current
song). -/
structure IdleEvent where
  idleOk : Bool
  statusOk : Option RawStatus
  song : Option (Option Song)
  deriving DecidableEq, Repr

namespace StatusIterator

/-- `StatusIterator::get_status` from `src/mpd/status_iterator.rs`
(lines 32-44): `status().ok()?`, `status.elapsed?`, `status.duration?`,
`currentsong().ok()??`. -/
def get_status (e : IdleEvent) : Option SongStatus :=
  match e.statusOk with
  | none => none
  | some st =>
      match st.elapsed with
      | none => none
      | some elapsed =>
          match st.duration with
          | none => none
          | some duration =>
              match e.song with
              | none => none
              | some none => none
              | some (some song) => some ⟨song, duration, elapsed⟩

/-- `StatusIterator::next` (lines 50-57): loop; a failed `idle` ends the
sequence, a `get_status` miss is skipped and the loop waits for the next
state change. -/
def next : List IdleEvent → Option (SongStatus × List IdleEvent)
  | [] => none
  | e :: rest =>
      if e.idleOk then
        match get_status e with
        | some s => some (s, rest)
        | none => next rest
      else none

end StatusIterator

namespace MpdStatusIterator

/-- `MpdStatusIterator::next` from `src/main.rs` (lines 42-56): the same
chain of `?` operators, but with no loop — any failure (including a missing
elapsed or duration) returns `None`, ending the sequence. -/
def next : List IdleEvent → Option (SongStatus × List IdleEvent)
  | [] => none
  | e :: rest =>
      if e.idleOk then
        match e.statusOk with
        | none => none
        | some st =>
            match st.elapsed with
            | none => none
            | some elapsed =>
                match st.duration with
                | none => none
                | some duration =>
                    match e.song with
                    | none => none
                    | some none => none
                    | some (some song) => some (⟨song, duration, elapsed⟩, rest)
      else none

end MpdStatusIterator

/-- A concrete track, used to evaluate the tracker on closed inputs. -/
def songA : Song := ⟨"a.mp3", some "Alpha", some "Ann"⟩

/-- The same track file as `songA` but with different metadata. -/
def songA2 : Song := ⟨"a.mp3", some "Alpha (remaster)", none⟩

/-- A second concrete track with a different file. -/
def songB : Song := ⟨"b.mp3", some "Beta", none⟩

/-- A concrete active span over `songA`: started at time 100, high-water
mark 130 s. -/
def spanA : CurrentListen := ⟨songA, 100, durFromSecs 130⟩

/-- A concrete active span over `songA` with a low high-water mark (10 s). -/
def spanA10 : CurrentListen := ⟨songA, 100, durFromSecs 10⟩

/-- A concrete incoming sample for `songB` (duration 100 s, elapsed 0). -/
def statusB : SongStatus := ⟨songB, durFromSecs 100, 0⟩

/-- A concrete incoming sample for `songA` near its start (duration 40 s,
elapsed 1 s), as in a restart. -/
def statusA1 : SongStatus := ⟨songA2, durFromSecs 40, durFromSecs 1⟩

/-- A concrete timed-sample trace: `songA` progresses to 130 s, then
`songB` arrives. -/
def demoTrace : List (Nat × SongStatus) :=
  [(100, ⟨songA, durFromSecs 200, durFromSecs 5⟩),
   (160, ⟨songA, durFromSecs 200, durFromSecs 130⟩),
   (240, ⟨songB, durFromSecs 100, 0⟩),
   (300, ⟨songB, durFromSecs 100, durFromSecs 65⟩),
   (370, ⟨songA, durFromSecs 200, 0⟩)]

/-- A concrete same-track sample jumping backward to 50 s (duration 200 s):
a backward jump that is not a restart. -/
def statusA50 : SongStatus := ⟨songA2, durFromSecs 200, durFromSecs 50⟩

/-- A state-change event whose status lacks an elapsed position. -/
def badEv : IdleEvent := ⟨true, some ⟨none, some (durFromSecs 100)⟩, some (some songA)⟩

/-- A fully-determined state-change event. -/
def goodEv : IdleEvent := ⟨true, some ⟨some (durFromSecs 3), some (durFromSecs 100)⟩, some (some songA)⟩

/-! ## Theorems -/

/-- C1 (counterexample). The claim states the percentage condition is live
whenever the total duration is nonzero, but `should_emit` guards it with
`total_duration.as_secs() > 0`: at high-water mark 0.4 s and total duration
0.5 s (nonzero, ratio 0.8 ≥ 0.6) the code returns `false` while the claim
predicts `true`. -/
theorem spec_c1_counterexample :
    ¬ (ListenIterator.should_emit 400000000 500000000 = true ↔
       (durFromSecs 20 ≤ 400000000 ∨
        ((500000000 : Nat) ≠ 0 ∧ 3 * 500000000 ≤ 5 * 400000000))) := by
  decide

/-- C1 (amended). `should_emit h d` is true iff `h ≥ 20 s`, or `d` is at
least one whole second (`as_secs d > 0`) and `h / d ≥ 0.6`; when the
whole-second part of the duration is zero the percentage condition is
false, so only the 20-second condition can make the result true. -/
theorem spec_c1_should_emit_iff (h d : Nat) :
    ListenIterator.should_emit h d = true ↔
      (durFromSecs 20 ≤ h ∨ (0 < durAsSecs d ∧ 3 * d ≤ 5 * h)) := by
  simp [ListenIterator.should_emit, Bool.or_eq_true, Bool.and_eq_true,
    decide_eq_true_iff]

/-- C4. `is_restart e m` is true iff `e < 5 s ∧ m ≥ 5 s`; in particular it
is true at `(2 s, 5 s)`, false at `(4.9 s, 4.9 s)`, and the boundary is
inclusive on the high-water side and exclusive on elapsed. -/
theorem spec_c4_is_restart :
    (∀ e m : Nat, ListenIterator.is_restart e m = true ↔
      (e < durFromSecs 5 ∧ durFromSecs 5 ≤ m)) ∧
    ListenIterator.is_restart (durFromSecs 2) (durFromSecs 5) = true ∧
    ListenIterator.is_restart 4900000000 4900000000 = false ∧
    ListenIterator.is_restart (durFromSecs 5) (durFromSecs 5) = false ∧
    ListenIterator.is_restart 4999999999 (durFromSecs 5) = true := by
  refine ⟨?_, by decide, by decide, by decide, by decide⟩
  intro e m
  simp [ListenIterator.is_restart, Bool.and_eq_true, decide_eq_true_iff]

/-- C2. On a track change (active span, incoming file differs) the span is
unconditionally replaced by a fresh span for the incoming track (start =
now, high-water mark = incoming elapsed), and a record for the outgoing
span (its track and original start) is emitted iff `should_emit` holds for
the outgoing high-water mark against the incoming duration; with no
emission the iterator keeps pulling. -/
theorem spec_c2_track_change (l : CurrentListen) (now : Nat)
    (status : SongStatus) (rest : List (Nat × SongStatus))
    (hfile : l.song.file ≠ status.song.file) :
    ListenIterator.step (some l) now status =
      (some ⟨status.song, now, status.elapsed⟩,
        if ListenIterator.should_emit l.max_elapsed status.duration then
          some ⟨l.song, l.start⟩ else none) ∧
    (ListenIterator.should_emit l.max_elapsed status.duration = false →
      ListenIterator.nextRecord (some l) ((now, status) :: rest) =
        ListenIterator.nextRecord (some ⟨status.song, now, status.elapsed⟩) rest) ∧
    (ListenIterator.should_emit l.max_elapsed status.duration = true →
      ListenIterator.nextRecord (some l) ((now, status) :: rest) =
        some (⟨l.song, l.start⟩, some ⟨status.song, now, status.elapsed⟩, rest)) := by
  have hstep : ListenIterator.step (some l) now status =
      (some ⟨status.song, now, status.elapsed⟩,
        if ListenIterator.should_emit l.max_elapsed status.duration then
          some ⟨l.song, l.start⟩ else none) := by
    simp [ListenIterator.step, hfile]
  refine ⟨hstep, ?_, ?_⟩ <;> intro hse <;>
    simp [ListenIterator.nextRecord, hstep, hse]

/-- C2 (witness): span over `a.mp3` with high-water mark 130 s, incoming
sample for `b.mp3` of duration 100 s. -/
theorem spec_c2_witness :
    ListenIterator.nextRecord (some spanA) ((240, statusB) :: []) =
      some (⟨spanA.song, spanA.start⟩, some ⟨statusB.song, 240, statusB.elapsed⟩, []) :=
  (spec_c2_track_change spanA 240 statusB [] (by decide)).2.2 (by decide)

/-- C3. On a same-track sample for which `is_restart` holds, the span is
replaced by a new span for the same track (start = now, high-water mark =
incoming elapsed), and a record (same track, old start time) is emitted iff
`should_emit` holds for the old high-water mark against the incoming
duration. -/
theorem spec_c3_restart (l : CurrentListen) (now : Nat) (status : SongStatus)
    (rest : List (Nat × SongStatus))
    (hfile : l.song.file = status.song.file)
    (hres : ListenIterator.is_restart status.elapsed l.max_elapsed = true) :
    ListenIterator.step (some l) now status =
      (some ⟨l.song, now, status.elapsed⟩,
        if ListenIterator.should_emit l.max_elapsed status.duration then
          some ⟨l.song, l.start⟩ else none) ∧
    (ListenIterator.should_emit l.max_elapsed status.duration = false →
      ListenIterator.nextRecord (some l) ((now, status) :: rest) =
        ListenIterator.nextRecord (some ⟨l.song, now, status.elapsed⟩) rest) ∧
    (ListenIterator.should_emit l.max_elapsed status.duration = true →
      ListenIterator.nextRecord (some l) ((now, status) :: rest) =
        some (⟨l.song, l.start⟩, some ⟨l.song, now, status.elapsed⟩, rest)) := by
  have hstep : ListenIterator.step (some l) now status =
      (some ⟨l.song, now, status.elapsed⟩,
        if ListenIterator.should_emit l.max_elapsed status.duration then
          some ⟨l.song, l.start⟩ else none) := by
    simp [ListenIterator.step, hfile, hres]
  refine ⟨hstep, ?_, ?_⟩ <;> intro hse <;>
    simp [ListenIterator.nextRecord, hstep, hse]

/-- C3 (witness): span over `a.mp3` with high-water mark 130 s, incoming
same-file sample at elapsed 1 s (restart; 130 s qualifies). -/
theorem spec_c3_witness :
    ListenIterator.nextRecord (some spanA) ((500, statusA1) :: []) =
      some (⟨spanA.song, spanA.start⟩, some ⟨spanA.song, 500, statusA1.elapsed⟩, []) :=
  (spec_c3_restart spanA 500 statusA1 [] (by decide) (by decide)).2.2 (by decide)

/-- C5. On a same-track sample that is not a restart, the high-water mark
is raised to the incoming elapsed position only if that position exceeds
it (so it never decreases), a backward jump that is not a restart leaves
the span entirely unchanged, and no record is emitted. -/
theorem spec_c5_monotone_high_water (l : CurrentListen) (now : Nat)
    (status : SongStatus)
    (hfile : l.song.file = status.song.file)
    (hres : ListenIterator.is_restart status.elapsed l.max_elapsed = false) :
    ListenIterator.step (some l) now status =
      (some ⟨l.song, l.start,
        if l.max_elapsed < status.elapsed then status.elapsed
        else l.max_elapsed⟩, none) ∧
    l.max_elapsed ≤
      (if l.max_elapsed < status.elapsed then status.elapsed else l.max_elapsed) ∧
    (status.elapsed ≤ l.max_elapsed →
      ListenIterator.step (some l) now status = (some l, none)) := by
  refine ⟨by simp [ListenIterator.step, hfile, hres], ?_, ?_⟩
  · split <;> omega
  · intro hle
    simp [ListenIterator.step, hfile, hres, Nat.not_lt.mpr hle]

/-- C5 (witness): span over `a.mp3` with high-water mark 130 s, same-file
sample jumping backward to 50 s: not a restart, span unchanged, nothing
emitted. -/
theorem spec_c5_witness :
    ListenIterator.step (some spanA) 600 statusA50 = (some spanA, none) :=
  (spec_c5_monotone_high_water spanA 600 statusA50 (by decide) (by decide)).2.2
    (by decide)

/-- C6. The tracker signals exhaustion only when the source is exhausted:
`nextRecord` returns `none` exactly when draining the whole input produces
no record; on an already-exhausted source it returns `none` immediately,
and the still-open span is discarded without any emission. -/
theorem spec_c6_exhaustion :
    (∀ cur : Option CurrentListen, ListenIterator.nextRecord cur [] = none) ∧
    (∀ (cur : Option CurrentListen) (evs : List (Nat × SongStatus)),
      ListenIterator.nextRecord cur evs = none ↔
        (ListenIterator.run cur evs).1 = []) ∧
    (∀ cur : Option CurrentListen, ListenIterator.run cur [] = ([], cur)) := by
  refine ⟨fun cur => rfl, ?_, fun cur => rfl⟩
  intro cur evs
  induction evs generalizing cur with
  | nil => simp [ListenIterator.nextRecord, ListenIterator.run]
  | cons e rest ih =>
      obtain ⟨now, status⟩ := e
      rcases h : ListenIterator.step cur now status with ⟨cur', r⟩
      cases r <;>
        simp [ListenIterator.nextRecord, ListenIterator.run, h, ih]

/-- Helper: the three branches of `step` on an open span, as one equation. -/
theorem listen_step_some_eq (l : CurrentListen) (now : Nat)
    (status : SongStatus) :
    ListenIterator.step (some l) now status =
      if l.song.file ≠ status.song.file then
        (some ⟨status.song, now, status.elapsed⟩,
          if ListenIterator.should_emit l.max_elapsed status.duration then
            some ⟨l.song, l.start⟩ else none)
      else if ListenIterator.is_restart status.elapsed l.max_elapsed then
        (some ⟨l.song, now, status.elapsed⟩,
          if ListenIterator.should_emit l.max_elapsed status.duration then
            some ⟨l.song, l.start⟩ else none)
      else
        (some ⟨l.song, l.start,
            if l.max_elapsed < status.elapsed then status.elapsed
            else l.max_elapsed⟩, none) := rfl

/-- Helper: on an open span, `step` always returns an open span whose start
is either the old start or `now`, and any emitted record carries the old
start. -/
theorem listen_step_some_cases (l : CurrentListen) (now : Nat)
    (status : SongStatus) :
    ∃ l' r, ListenIterator.step (some l) now status = (some l', r) ∧
      (l'.start = l.start ∨ l'.start = now) ∧
      (∀ rec, r = some rec → rec.start = l.start) := by
  rw [listen_step_some_eq]
  split_ifs <;>
    refine ⟨_, _, rfl, by simp, ?_⟩ <;>
    intro rec hr <;>
    first
      | exact Option.noConfusion hr
      | exact (congrArg SongListenRecord.start (Option.some.inj hr)).symm

/-- Helper: if the clock values of the remaining input are sorted and bound
the open span's start from below, the emitted records' starts are sorted and
bounded below by that start. -/
theorem listen_run_sorted_aux (evs : List (Nat × SongStatus))
    (l : CurrentListen)
    (hp : List.Pairwise (· ≤ ·) (evs.map Prod.fst))
    (hb : ∀ t ∈ evs.map Prod.fst, l.start ≤ t) :
    List.Pairwise (· ≤ ·)
      ((ListenIterator.run (some l) evs).1.map SongListenRecord.start) ∧
    ∀ rec ∈ (ListenIterator.run (some l) evs).1, l.start ≤ rec.start := by
  induction evs generalizing l with
  | nil => simp [ListenIterator.run]
  | cons e rest ih =>
      obtain ⟨now, status⟩ := e
      rw [List.map_cons, List.pairwise_cons] at hp
      have hnow : l.start ≤ now := hb now (by simp)
      obtain ⟨l', r, hstep, hst, hrec⟩ := listen_step_some_cases l now status
      have hll' : l.start ≤ l'.start := by
        rcases hst with h | h <;> omega
      have hb' : ∀ t ∈ rest.map Prod.fst, l'.start ≤ t := by
        intro t ht
        rcases hst with h | h
        · rw [h]; exact hb t (by simp [ht])
        · rw [h]; exact hp.1 t ht
      have IH := ih l' hp.2 hb'
      cases r with
      | none =>
          refine ⟨?_, ?_⟩ <;> simp only [ListenIterator.run, hstep]
          · exact IH.1
          · intro rec hrmem
            exact le_trans hll' (IH.2 rec hrmem)
      | some rec =>
          have hrs : rec.start = l.start := hrec rec rfl
          constructor
          · simp only [ListenIterator.run, hstep, List.map_cons,
              List.pairwise_cons]
            refine ⟨?_, IH.1⟩
            intro b hbmem
            rw [List.mem_map] at hbmem
            obtain ⟨rec', hrec', hback⟩ := hbmem
            rw [← hback, hrs]
            exact le_trans hll' (IH.2 rec' hrec')
          · simp only [ListenIterator.run, hstep, List.mem_cons]
            rintro rec' (h | h)
            · rw [h, hrs]
            · exact le_trans hll' (IH.2 rec' h)

/-- C7. When wall-clock times are monotone, the records emitted over any
input sequence appear in chronological order of their span start times; and
every emitting step replaces the active span with a fresh one (start = now,
high-water mark = incoming elapsed), so no still-open span can be emitted
twice. -/
theorem spec_c7_ordering :
    (∀ evs : List (Nat × SongStatus),
      List.Pairwise (· ≤ ·) (evs.map Prod.fst) →
      List.Pairwise (· ≤ ·)
        ((ListenIterator.run none evs).1.map SongListenRecord.start)) ∧
    (∀ (cur cur' : Option CurrentListen) (now : Nat) (status : SongStatus)
        (rec : SongListenRecord),
      ListenIterator.step cur now status = (cur', some rec) →
      ∃ l', cur' = some l' ∧ l'.start = now ∧
        l'.max_elapsed = status.elapsed) := by
  constructor
  · intro evs hp
    cases evs with
    | nil => simp [ListenIterator.run]
    | cons e rest =>
        obtain ⟨now, status⟩ := e
        rw [List.map_cons, List.pairwise_cons] at hp
        have hstep : ListenIterator.step none now status =
            (some ⟨status.song, now, status.elapsed⟩, none) := rfl
        have := listen_run_sorted_aux rest ⟨status.song, now, status.elapsed⟩
          hp.2 (by intro t ht; exact hp.1 t ht)
        simp only [ListenIterator.run, hstep]
        exact this.1
  · intro cur cur' now status rec h
    cases cur with
    | none => simp [ListenIterator.step] at h
    | some l =>
        rw [listen_step_some_eq] at h
        split_ifs at h <;>
          rw [Prod.mk.injEq] at h <;>
          obtain ⟨h1, h2⟩ := h <;>
          first
            | exact Option.noConfusion h2
            | exact ⟨_, h1.symm, rfl, rfl⟩

/-- C7 (witness): on the concrete five-sample trace with increasing clock
values, the two emitted records' start times are in order. -/
theorem spec_c7_witness :
    List.Pairwise (· ≤ ·)
      ((ListenIterator.run none demoTrace).1.map SongListenRecord.start) :=
  spec_c7_ordering.1 demoTrace (by decide)

/-- C9. Track identity is decided by the songs' `file` fields alone: a span
is opened with the incoming sample's whole song; any emitted record carries
the song stored when the span was opened; a same-file sample (whatever its
other metadata) is handled as the same track and the stored song is kept;
a sample whose file differs replaces the span with the incoming song. -/
theorem spec_c9_track_identity :
    (∀ (now : Nat) (status : SongStatus),
      ListenIterator.step none now status =
        (some ⟨status.song, now, status.elapsed⟩, none)) ∧
    (∀ (l : CurrentListen) (now : Nat) (status : SongStatus)
        (cur' : Option CurrentListen) (rec : SongListenRecord),
      ListenIterator.step (some l) now status = (cur', some rec) →
      rec.song = l.song) ∧
    (∀ (l : CurrentListen) (now : Nat) (status : SongStatus),
      l.song.file = status.song.file →
      (ListenIterator.step (some l) now status).1 =
        some ⟨l.song,
          if ListenIterator.is_restart status.elapsed l.max_elapsed then now
          else l.start,
          if ListenIterator.is_restart status.elapsed l.max_elapsed then
            status.elapsed
          else if l.max_elapsed < status.elapsed then status.elapsed
          else l.max_elapsed⟩) ∧
    (∀ (l : CurrentListen) (now : Nat) (status : SongStatus),
      l.song.file ≠ status.song.file →
      (ListenIterator.step (some l) now status).1 =
        some ⟨status.song, now, status.elapsed⟩) := by
  refine ⟨fun now status => rfl, ?_, ?_, ?_⟩
  · intro l now status cur' rec h
    rw [listen_step_some_eq] at h
    split_ifs at h <;>
      rw [Prod.mk.injEq] at h <;>
      obtain ⟨h1, h2⟩ := h <;>
      first
        | exact Option.noConfusion h2
        | exact (congrArg SongListenRecord.song (Option.some.inj h2)).symm
  · intro l now status hfile
    rw [listen_step_some_eq]
    by_cases hres : ListenIterator.is_restart status.elapsed l.max_elapsed <;>
      simp [hfile, hres]
  · intro l now status hfile
    rw [listen_step_some_eq]
    simp [hfile]

/-- C9 (witness): on a track change the emitted record carries the song
stored at span open; a same-file sample with different metadata keeps the
stored song. -/
theorem spec_c9_witness :
    ((⟨songA, 100⟩ : SongListenRecord).song = spanA.song) ∧
    (ListenIterator.step (some spanA) 500 statusA1).1 =
      some ⟨spanA.song, 500, statusA1.elapsed⟩ := by
  constructor
  · exact spec_c9_track_identity.2.1 spanA 240 statusB
      (some ⟨songB, 240, 0⟩) ⟨songA, 100⟩ (by decide)
  · have h := spec_c9_track_identity.2.2.1 spanA 500 statusA1 (by decide)
    rw [h]
    decide

/-- C8 (counterexample). On an event whose status lacks an elapsed position
followed by a fully-determined event, `StatusIterator::next` skips and
yields the good sample, but `MpdStatusIterator::next` in `src/main.rs`
returns `None`, ending the sequence instead of skipping. -/
theorem spec_c8_counterexample :
    MpdStatusIterator.next [badEv, goodEv] = none ∧
    StatusIterator.next [badEv, goodEv] =
      some (⟨songA, durFromSecs 100, durFromSecs 3⟩, []) := by
  exact ⟨rfl, rfl⟩

/-- C8 (amended). `StatusIterator::next` suppresses states whose duration or
elapsed position cannot be determined, skipping to the next state change;
`MpdStatusIterator::next` in `src/main.rs` instead ends the sequence on such
a state; in both cases a yielded sample always comes from a status with both
fields present, so the tracker's input never lacks them. -/
theorem spec_c8_suppression :
    (∀ (e : IdleEvent) (rest : List IdleEvent),
      e.idleOk = true → StatusIterator.get_status e = none →
      StatusIterator.next (e :: rest) = StatusIterator.next rest ∧
      MpdStatusIterator.next (e :: rest) = none) ∧
    (∀ (e : IdleEvent) (s : SongStatus),
      StatusIterator.get_status e = some s →
      ∃ rs, e.statusOk = some rs ∧ rs.elapsed = some s.elapsed ∧
        rs.duration = some s.duration) := by
  constructor
  · intro e rest h1 h2
    constructor
    · simp [StatusIterator.next, h1, h2]
    · rcases e with ⟨ok, so, sg⟩
      simp only at h1
      subst h1
      rcases so with _ | ⟨el, du⟩
      · rfl
      · rcases el with _ | el
        · rfl
        · rcases du with _ | du
          · rfl
          · rcases sg with _ | (_ | sg)
            · rfl
            · rfl
            · exact absurd h2 (by simp [StatusIterator.get_status])
  · intro e s h
    rcases e with ⟨ok, so, sg⟩
    rcases so with _ | ⟨el, du⟩
    · exact Option.noConfusion h
    · rcases el with _ | el
      · exact Option.noConfusion h
      · rcases du with _ | du
        · exact Option.noConfusion h
        · rcases sg with _ | (_ | sg)
          · exact Option.noConfusion h
          · exact Option.noConfusion h
          · refine ⟨⟨some el, some du⟩, rfl, ?_, ?_⟩ <;>
              rw [← Option.some.inj h]

/-- C8 (witness): the skipping equation and the `main.rs` termination at the
concrete malformed event. -/
theorem spec_c8_witness :
    StatusIterator.next [badEv, goodEv] = StatusIterator.next [goodEv] ∧
    MpdStatusIterator.next [badEv, goodEv] = none :=
  spec_c8_suppression.1 badEv [goodEv] rfl rfl

/-- C10. The duplicated tracker in `src/main.rs` and the one in
`src/mpd/listen_iterator.rs` agree on their predicates, on every single
transition, and on the whole record sequence for every input (given the
same wall-clock values). -/
theorem spec_c10_equivalence :
    (∀ h d, ListenIterator.should_emit h d = SongListenTracker.should_emit h d) ∧
    (∀ e m, ListenIterator.is_restart e m = SongListenTracker.is_restart e m) ∧
    (∀ cur now status,
      ListenIterator.step cur now status = SongListenTracker.step cur now status) ∧
    (∀ (cur : Option CurrentListen) (evs : List (Nat × SongStatus)),
      ListenIterator.run cur evs = SongListenTracker.run cur evs ∧
      ListenIterator.nextRecord cur evs = SongListenTracker.nextRecord cur evs) := by
  refine ⟨fun h d => rfl, fun e m => rfl, fun cur now status => rfl, ?_⟩
  intro cur evs
  induction evs generalizing cur with
  | nil => exact ⟨rfl, rfl⟩
  | cons e rest ih =>
      obtain ⟨now, status⟩ := e
      rcases h : ListenIterator.step cur now status with ⟨cur', r⟩
      have h' : SongListenTracker.step cur now status = (cur', r) := h
      cases r <;>
        simp [ListenIterator.run, SongListenTracker.run,
          ListenIterator.nextRecord, SongListenTracker.nextRecord, h, h',
          (ih _).1, (ih _).2]
